import Mathlib

/-!
Shallow embedding of the marketMaker transaction ingestion pipeline.

Source files modelled:
  - src/modules/data_collectors/transaction_data_collector.py
    (extract_transaction_data, safe_extract_transaction_data,
     save_transactions_to_db, get_tball_transactions, main)
  - src/modules/data_collectors/market_data_fetcher.py
    (extract_all_transactions, save_all_transactions_to_db,
     get_tball_signatures)

Numeric amounts are embedded as rationals (the spec's decimal-arithmetic
reading of the Python floats); Python exceptions are embedded as the
error side of `Except String`; JSON key absence is embedded as `Option`.
-/

/-- Tracked mint identifier (transaction_data_collector.py line 15). -/
def TBALL_MINT_ADDRESS : String := "CWnzqQVFaD7sKsZyh116viC48G7qLz8pa5WhFpBEg9wM"

/-- Reference (wrapped-native) mint identifier (line 16). -/
def WSOL_MINT_ADDRESS : String := "So11111111111111111111111111111111111111112"

/-- Maximum retry count shared by both fetch scripts (line 17 of each). -/
def MAX_RETRIES : Nat := 5

/-- Referral-fee-vault receiver pattern (transaction_data_collector.py line 108). -/
def REFERRAL_VAULT_PATTERN : String := "Jupiter Partner Referral Fee Vault"

/-- Character-list version of `String.startsWith` used by the substring search. -/
def charsHasPre : List Char → List Char → Bool
  | [], _ => true
  | _ :: _, [] => false
  | p :: ps, c :: cs => p = c && charsHasPre ps cs

/-- Character-list substring search: does `pat` occur inside `l`. -/
def charsHasSub : List Char → List Char → Bool
  | pat, [] => pat.isEmpty
  | pat, c :: cs => charsHasPre pat (c :: cs) || charsHasSub pat cs

/-- Python `pat in s` substring containment over strings. -/
def strContains (s pat : String) : Bool :=
  charsHasSub pat.toList s.toList

/-- Raw JSON `tokenAmount` value of a transfer: the key may be absent
(Python `transfer['tokenAmount']` raises KeyError), present but not parseable
as a number (`float(...)` raises ValueError), or a parseable number. -/
inductive RawAmount where
  | missing : RawAmount
  | malformed : RawAmount
  | num : ℚ → RawAmount
deriving DecidableEq

/-- One entry of a raw transaction's `tokenTransfers` list; `none` fields
model absent JSON keys. -/
structure RawTransfer where
  mint : Option String
  fromUserAccount : Option String
  toUserAccount : Option String
  tokenAmount : RawAmount
deriving DecidableEq

/-- One leg of a nested inner swap (`tokenInputs` / `tokenOutputs` entry);
the amount is kept in its textual form since the Python only interpolates it. -/
structure SwapLeg where
  tokenAmount : Option String
  mint : Option String
deriving DecidableEq

/-- One entry of `events.swap.innerSwaps`. -/
structure InnerSwap where
  tokenInputs : List SwapLeg
  tokenOutputs : List SwapLeg
deriving DecidableEq

/-- A raw parsed transaction as consumed by `extract_transaction_data`.
`txText` stands for the Python serialization `str(tx)` / `json.dumps(tx)`,
which the code only uses for substring matching and for the audit copy. -/
structure RawTx where
  signature : Option String
  timestamp : Option Int
  fee : Option Int
  feePayer : Option String
  err : Option String
  tokenTransfers : List RawTransfer
  innerSwaps : List InnerSwap
  txText : String
deriving DecidableEq

/-- The normalized record returned by `extract_transaction_data`
(the dict built at lines 138-155). -/
structure TxRecord where
  signature : String
  timestamp : Int
  transaction_type : String
  from_wallet : Option String
  to_wallet : Option String
  tball_amount : ℚ
  wsol_amount : ℚ
  other_token_amount : ℚ
  other_token_mint : Option String
  aggregators : Option String
  referral_fees : ℚ
  referral_vault : Option String
  intermediate_swaps : String
  fee : ℚ
  success : Bool
  raw_data : String
deriving DecidableEq

/-- Tracked-mint bucket of the partition loop (lines 97-104): the transfers
whose `mint` equals the tracked mint, in input order. -/
def tballOf (ts : List RawTransfer) : List RawTransfer :=
  ts.filter fun t => t.mint = some TBALL_MINT_ADDRESS

/-- Reference-mint bucket: transfers reaching the `elif` branch whose `mint`
equals the reference mint. -/
def wsolOf (ts : List RawTransfer) : List RawTransfer :=
  ts.filter fun t => ¬ t.mint = some TBALL_MINT_ADDRESS ∧ t.mint = some WSOL_MINT_ADDRESS

/-- Remaining (`else` branch) bucket: neither tracked nor reference mint. -/
def otherOf (ts : List RawTransfer) : List RawTransfer :=
  ts.filter fun t => ¬ t.mint = some TBALL_MINT_ADDRESS ∧ ¬ t.mint = some WSOL_MINT_ADDRESS

/-- Aggregator detection over the serialized transaction (lines 89-94);
the Python builds a set, realized here as a duplicate-free list in a fixed
order since each literal is tested once. -/
def detectAggregators (txText : String) : List String :=
  (if strContains txText "Jupiter" then ["Jupiter"] else []) ++
  (if strContains txText "Raydium" then ["Raydium"] else []) ++
  (if strContains txText "Lifinity" then ["Lifinity"] else [])

/-- One iteration of the referral-fee loop (lines 107-110): read
`transfer['toUserAccount']` (KeyError when absent), and when it contains the
vault pattern add `float(transfer['tokenAmount'])` and record the receiver. -/
def referralStep (acc : ℚ × Option String) (t : RawTransfer) :
    Except String (ℚ × Option String) :=
  match t.toUserAccount with
  | none => Except.error "KeyError: toUserAccount"
  | some ua =>
    if strContains ua REFERRAL_VAULT_PATTERN then
      match t.tokenAmount with
      | RawAmount.num q => Except.ok (acc.1 + q, some ua)
      | RawAmount.missing => Except.error "KeyError: tokenAmount"
      | RawAmount.malformed => Except.error "ValueError: tokenAmount"
    else Except.ok acc

/-- The referral-fee loop folded from the left over the other-bucket,
starting from `referral_fees = 0`, `referral_vault = None`. -/
def referralLoop (acc : ℚ × Option String) :
    List RawTransfer → Except String (ℚ × Option String)
  | [] => Except.ok acc
  | t :: ts =>
    match referralStep acc t with
    | Except.error e => Except.error e
    | Except.ok a => referralLoop a ts

/-- Formatting of one inner-swap leg (lines 116 and 118): the f-string reads
`tokenAmount` and `mint` by key, raising when either is absent. -/
def legStr (tag : String) (leg : SwapLeg) : Except String String :=
  match leg.tokenAmount, leg.mint with
  | some a, some m => Except.ok (tag ++ a ++ " " ++ m)
  | _, _ => Except.error "KeyError: swap leg field"

/-- Formatting of one list of legs in order, failing at the first bad leg. -/
def legsStrings (tag : String) : List SwapLeg → Except String (List String)
  | [] => Except.ok []
  | leg :: legs =>
    match legStr tag leg with
    | Except.error e => Except.error e
    | Except.ok s =>
      match legsStrings tag legs with
      | Except.error e => Except.error e
      | Except.ok ss => Except.ok (s :: ss)

/-- Flattening of one inner-swap event: all input legs then all output legs. -/
def innerSwapStrings (e : InnerSwap) : Except String (List String) :=
  match legsStrings "Input: " e.tokenInputs with
  | Except.error e1 => Except.error e1
  | Except.ok ins =>
    match legsStrings "Output: " e.tokenOutputs with
    | Except.error e2 => Except.error e2
    | Except.ok outs => Except.ok (ins ++ outs)

/-- Flattening of the whole `innerSwaps` list (lines 113-118). -/
def allSwapStrings : List InnerSwap → Except String (List String)
  | [] => Except.ok []
  | e :: es =>
    match innerSwapStrings e with
    | Except.error e1 => Except.error e1
    | Except.ok ss =>
      match allSwapStrings es with
      | Except.error e2 => Except.error e2
      | Except.ok rest => Except.ok (ss ++ rest)

/-- Python `sum(float(t['tokenAmount']) for t in bucket)` (lines 121-123):
fails at the first transfer whose amount key is absent or not parseable. -/
def sumAmounts : List RawTransfer → Except String ℚ
  | [] => Except.ok 0
  | t :: ts =>
    match t.tokenAmount with
    | RawAmount.num q =>
      match sumAmounts ts with
      | Except.error e => Except.error e
      | Except.ok s => Except.ok (q + s)
    | RawAmount.missing => Except.error "KeyError: tokenAmount"
    | RawAmount.malformed => Except.error "ValueError: tokenAmount"

/-- Parsed numeric value of a transfer amount, 0 when it does not parse;
only used to state properties of successful extractions. -/
def amountQ (t : RawTransfer) : ℚ :=
  match t.tokenAmount with
  | RawAmount.num q => q
  | _ => 0

/-- Python `other_transfers[0]['mint'] if other_transfers else None`
(line 124); the bracket access raises when the first other transfer has no
mint key. -/
def otherMint : List RawTransfer → Except String (Option String)
  | [] => Except.ok none
  | t :: _ =>
    match t.mint with
    | some m => Except.ok (some m)
    | none => Except.error "KeyError: mint"

/-- Transaction-type rule of extract_transaction_data (lines 127-132). -/
def classifyTx (tball wsol others : List RawTransfer) : String :=
  if tball ≠ [] ∧ (wsol ≠ [] ∨ others ≠ []) then "Swap"
  else if 1 < tball.length ∨ 1 < wsol.length then "MultiSwap"
  else "Transfer"

/-- Transaction-type rule of extract_all_transactions in
market_data_fetcher.py (lines 164-169): Swap needs a reference transfer. -/
def classifyTxFetcher (tball wsol : List RawTransfer) : String :=
  if tball ≠ [] ∧ wsol ≠ [] then "Swap"
  else if 1 < tball.length ∨ 1 < wsol.length then "MultiSwap"
  else "Transfer"

/-- Type assigned by the collector's classifier to a transfer list. -/
def collectorTransactionType (ts : List RawTransfer) : String :=
  classifyTx (tballOf ts) (wsolOf ts) (otherOf ts)

/-- Type assigned by the fetcher's classifier to the same transfer list
(it partitions by the same mint tests, lines 147-155). -/
def fetcherTransactionType (ts : List RawTransfer) : String :=
  classifyTxFetcher (tballOf ts) (wsolOf ts)

/-- Python `tball_transfers[0]['fromUserAccount'] if tball_transfers else None`. -/
def tballFrom : List RawTransfer → Except String (Option String)
  | [] => Except.ok none
  | t :: _ =>
    match t.fromUserAccount with
    | some s => Except.ok (some s)
    | none => Except.error "KeyError: fromUserAccount"

/-- Python `tx.get('feePayer') or (...)` (line 135): `or` falls through on
`None` and on the empty string, both falsy. -/
def fromWallet (fp : Option String) (tball : List RawTransfer) :
    Except String (Option String) :=
  match fp with
  | some s => if s = "" then tballFrom tball else Except.ok (some s)
  | none => tballFrom tball

/-- Python `tball_transfers[-1]['toUserAccount'] if tball_transfers else None`
(line 136). -/
def toWallet (tball : List RawTransfer) : Except String (Option String) :=
  match tball.getLast? with
  | none => Except.ok none
  | some t =>
    match t.toUserAccount with
    | some s => Except.ok (some s)
    | none => Except.error "KeyError: toUserAccount"

/-- The normalizer `extract_transaction_data` (lines 75-155), with the
Python evaluation order: fee, aggregators, bucket partition, referral loop,
inner swaps, bucket sums, other mint, classification, wallets, record. -/
def extract_transaction_data (tx : RawTx) : Except String TxRecord := do
  let fee : ℚ := ((tx.fee.getD 0 : Int) : ℚ) / 1000000000
  let aggs := detectAggregators tx.txText
  let tball := tballOf tx.tokenTransfers
  let wsol := wsolOf tx.tokenTransfers
  let others := otherOf tx.tokenTransfers
  let rf ← referralLoop (0, none) others
  let swapStrs ← allSwapStrings tx.innerSwaps
  let tballAmt ← sumAmounts tball
  let wsolAmt ← sumAmounts wsol
  let otherAmt ← sumAmounts others
  let oMint ← otherMint others
  let fw ← fromWallet tx.feePayer tball
  let tw ← toWallet tball
  Except.ok
    { signature := tx.signature.getD ""
      timestamp := (tx.timestamp.getD 0).fdiv 1000
      transaction_type := classifyTx tball wsol others
      from_wallet := fw
      to_wallet := tw
      tball_amount := tballAmt
      wsol_amount := wsolAmt
      other_token_amount := otherAmt
      other_token_mint := oMint
      aggregators := if aggs = [] then none else some (String.intercalate ", " aggs)
      referral_fees := rf.1
      referral_vault := rf.2
      intermediate_swaps := String.intercalate ", " swapStrs
      fee := fee
      success := tx.err.isNone
      raw_data := tx.txText }

/-- `safe_extract_transaction_data` (lines 158-164): the catch-all turns a
raised exception into `None`. -/
def safe_extract_transaction_data (tx : RawTx) : Option TxRecord :=
  (extract_transaction_data tx).toOption

/-- Batch processing in `main` (lines 224-225): extract every transaction,
then keep the non-`None` results. -/
def processBatch (txs : List RawTx) : List TxRecord :=
  (txs.map safe_extract_transaction_data).filterMap id

/-- Number of reported normalization errors for a batch: one per `None`
result of the safe extractor. -/
def normalizationErrors (txs : List RawTx) : Nat :=
  ((txs.map safe_extract_transaction_data).filter Option.isNone).length

/-- One step of `save_transactions_to_db` (lines 171-208): a SELECT by
signature decides between an UPDATE of every row with that signature and a
plain INSERT appended to the table. -/
def upsertTx (db : List TxRecord) (tx : TxRecord) : List TxRecord :=
  if db.any fun r => r.signature = tx.signature then
    db.map fun r => if r.signature = tx.signature then tx else r
  else db ++ [tx]

/-- `save_transactions_to_db` (lines 167-210): ingest the batch in order. -/
def save_transactions_to_db (db : List TxRecord) (txs : List TxRecord) : List TxRecord :=
  txs.foldl upsertTx db

/-- Number of stored rows carrying a given signature. -/
def sigCount (db : List TxRecord) (s : String) : Nat :=
  (db.filter fun r => r.signature = s).length

/-- A row of the market_data_fetcher.py `transactions` table, with the
columns its INSERT actually fills (lines 197-201); the two always-NULL
columns are omitted. -/
structure FetcherRow where
  from_wallet : String
  to_wallet : String
  tball_sent : ℚ
  tball_received : ℚ
  transaction_signature : Option String
  transaction_type : String
  aggregator : Option String
  timestamp : Option Int
deriving DecidableEq

/-- SQLite UNIQUE conflict test for `transaction_signature`: NULLs never
conflict, a non-NULL value conflicts with an existing equal value. -/
def fetcherSigConflict (db : List FetcherRow) (s : Option String) : Bool :=
  match s with
  | none => false
  | some v => db.any fun r => r.transaction_signature = some v

/-- One step of `save_all_transactions_to_db` (lines 195-203): the INSERT
raises IntegrityError on a signature conflict, which is caught and the row
skipped; otherwise the row is appended. -/
def fetcherInsert (db : List FetcherRow) (tx : FetcherRow) : List FetcherRow :=
  if fetcherSigConflict db tx.transaction_signature then db else db ++ [tx]

/-- `save_all_transactions_to_db` (lines 194-205): ingest the batch in order. -/
def save_all_transactions_to_db (db : List FetcherRow) (txs : List FetcherRow) :
    List FetcherRow :=
  txs.foldl fetcherInsert db

/-- Response of one HTTP attempt of `get_tball_transactions`: a 200 with a
transaction list, a 429 rate limit, or any other error status. -/
inductive FetchResp where
  | ok : List RawTx → FetchResp
  | rateLimited : FetchResp
  | err : FetchResp
deriving DecidableEq

/-- The `while retries < MAX_RETRIES` loop of `get_tball_transactions`
(lines 56-72), structurally recursive on the remaining retries
`MAX_RETRIES - retries`; `respond n` is the collaborator's answer to the
n-th request and the second component counts requests made.  A 200 returns
the first `limit` transactions, a 429 consumes one retry, any other status
breaks out and the function returns the empty list. -/
def getTballLoop (respond : Nat → FetchResp) (limit : Nat) :
    Nat → Nat → List RawTx × Nat
  | attempt, 0 => ([], attempt)
  | attempt, remaining + 1 =>
    match respond attempt with
    | FetchResp.ok txs => (txs.take limit, attempt + 1)
    | FetchResp.rateLimited => getTballLoop respond limit (attempt + 1) remaining
    | FetchResp.err => ([], attempt + 1)

/-- `get_tball_transactions` (lines 52-72): run the loop from zero retries. -/
def get_tball_transactions (respond : Nat → FetchResp) (limit : Nat) :
    List RawTx × Nat :=
  getTballLoop respond limit 0 MAX_RETRIES

/-- Response of one RPC attempt of `get_tball_signatures`: a 200 carrying a
page of signatures, a 429 rate limit, or any other error status. -/
inductive PageResp where
  | page : List String → PageResp
  | rateLimited : PageResp
  | err : PageResp
deriving DecidableEq

/-- The `while len(signatures) < limit and retries < MAX_RETRIES` loop of
`get_tball_signatures` (market_data_fetcher.py lines 56-87): an empty page
breaks, a non-empty page extends the collected list, a 429 consumes one
retry, any other status breaks; the collected signatures are returned in
every case, paired with the number of requests made. -/
def getSignaturesLoop (respond : Nat → PageResp) (limit : Nat)
    (sigs : List String) (attempt retries : Nat) : List String × Nat :=
  if h : sigs.length < limit ∧ retries < MAX_RETRIES then
    match respond attempt with
    | PageResp.page ps =>
      if hp : ps = [] then (sigs, attempt + 1)
      else getSignaturesLoop respond limit (sigs ++ ps) (attempt + 1) retries
    | PageResp.rateLimited =>
      getSignaturesLoop respond limit sigs (attempt + 1) (retries + 1)
    | PageResp.err => (sigs, attempt + 1)
  else (sigs, attempt)
termination_by (limit - sigs.length, MAX_RETRIES - retries)
decreasing_by
  · apply Prod.Lex.left
    have hps : 0 < ps.length := List.length_pos.mpr hp
    simp only [List.length_append]
    omega
  · apply Prod.Lex.right
    omega

/-- `get_tball_signatures` (lines 51-89): run the loop from an empty
collected list and zero retries. -/
def get_tball_signatures (respond : Nat → PageResp) (limit : Nat) :
    List String × Nat :=
  getSignaturesLoop respond limit [] 0 0

deriving instance DecidableEq for Except

/-- Inversion of a successful `Except` bind. -/
theorem exceptBind_eq_ok {ε α β : Type} (x : Except ε α) (f : α → Except ε β) (b : β) :
    (x >>= f) = Except.ok b ↔ ∃ a, x = Except.ok a ∧ f a = Except.ok b := by
  cases x <;> simp [Bind.bind, Except.bind]

/-- Inversion of a successful extraction: every fallible step succeeded and
the record is the literal built at lines 138-155. -/
theorem extract_ok_inv (tx : RawTx) (rec : TxRecord)
    (h : extract_transaction_data tx = Except.ok rec) :
    ∃ rf ss ta wa oa om fw tw,
      referralLoop (0, none) (otherOf tx.tokenTransfers) = Except.ok rf ∧
      allSwapStrings tx.innerSwaps = Except.ok ss ∧
      sumAmounts (tballOf tx.tokenTransfers) = Except.ok ta ∧
      sumAmounts (wsolOf tx.tokenTransfers) = Except.ok wa ∧
      sumAmounts (otherOf tx.tokenTransfers) = Except.ok oa ∧
      otherMint (otherOf tx.tokenTransfers) = Except.ok om ∧
      fromWallet tx.feePayer (tballOf tx.tokenTransfers) = Except.ok fw ∧
      toWallet (tballOf tx.tokenTransfers) = Except.ok tw ∧
      rec = { signature := tx.signature.getD ""
              timestamp := (tx.timestamp.getD 0).fdiv 1000
              transaction_type := collectorTransactionType tx.tokenTransfers
              from_wallet := fw
              to_wallet := tw
              tball_amount := ta
              wsol_amount := wa
              other_token_amount := oa
              other_token_mint := om
              aggregators :=
                if detectAggregators tx.txText = [] then none
                else some (String.intercalate ", " (detectAggregators tx.txText))
              referral_fees := rf.1
              referral_vault := rf.2
              intermediate_swaps := String.intercalate ", " ss
              fee := ((tx.fee.getD 0 : Int) : ℚ) / 1000000000
              success := tx.err.isNone
              raw_data := tx.txText } := by
  simp only [extract_transaction_data, exceptBind_eq_ok, Except.ok.injEq] at h
  obtain ⟨rf, hrf, ss, hss, ta, hta, wa, hwa, oa, hoa, om, hom, fw, hfw, tw, htw, hrec⟩ := h
  exact ⟨rf, ss, ta, wa, oa, om, fw, tw, hrf, hss, hta, hwa, hoa, hom, hfw, htw, hrec.symm⟩

/-- C1: for every raw transaction the normalizer classifies by the
Swap / MultiSwap / Transfer rule over the three mint buckets, the Swap test
being evaluated first, so one tracked plus one reference transfer is a Swap
and never a MultiSwap. -/
theorem C1_classification_rule :
    (∀ ts : List RawTransfer,
      collectorTransactionType ts =
        (if tballOf ts ≠ [] ∧ (wsolOf ts ≠ [] ∨ otherOf ts ≠ []) then "Swap"
         else if 1 < (tballOf ts).length ∨ 1 < (wsolOf ts).length then "MultiSwap"
         else "Transfer") ∧
      ((tballOf ts).length = 1 → (wsolOf ts).length = 1 →
        collectorTransactionType ts = "Swap")) ∧
    (∀ (tx : RawTx) (rec : TxRecord), extract_transaction_data tx = Except.ok rec →
      rec.transaction_type = collectorTransactionType tx.tokenTransfers) := by
  constructor
  · intro ts
    refine ⟨rfl, fun hT hW => ?_⟩
    have hT' : tballOf ts ≠ [] := by
      intro hnil
      rw [hnil] at hT
      simp at hT
    have hW' : wsolOf ts ≠ [] := by
      intro hnil
      rw [hnil] at hW
      simp at hW
    simp [collectorTransactionType, classifyTx, hT', hW']
  · intro tx rec h
    obtain ⟨rf, ss, ta, wa, oa, om, fw, tw, _, _, _, _, _, _, _, _, hrec⟩ :=
      extract_ok_inv tx rec h
    rw [hrec]

/-- C1 witness: a concrete transaction with one tracked and one reference
transfer extracts successfully, is classified Swap by the rule, and the
priority clause applies. -/
theorem C1_classification_rule_witness :
    collectorTransactionType
        [{ mint := some TBALL_MINT_ADDRESS, fromUserAccount := some "A",
           toUserAccount := some "B", tokenAmount := RawAmount.num 7 },
         { mint := some WSOL_MINT_ADDRESS, fromUserAccount := some "B",
           toUserAccount := some "A", tokenAmount := RawAmount.num 3 }] = "Swap" :=
  (C1_classification_rule.1 _).2 (by decide) (by decide)

/-- First transfer of the spec's worked example: 100 tracked tokens from A to B. -/
def c3Transfer1 : RawTransfer :=
  { mint := some TBALL_MINT_ADDRESS, fromUserAccount := some "A",
    toUserAccount := some "B", tokenAmount := RawAmount.num 100 }

/-- Second transfer of the spec's worked example: 2.5 reference tokens from B to A. -/
def c3Transfer2 : RawTransfer :=
  { mint := some WSOL_MINT_ADDRESS, fromUserAccount := some "B",
    toUserAccount := some "A", tokenAmount := RawAmount.num (5 / 2) }

/-- The spec's worked-example transaction: the two transfers above, raw fee
5000, no error field. -/
def c3Tx : RawTx :=
  { signature := none, timestamp := none, fee := some 5000, feePayer := none,
    err := none, tokenTransfers := [c3Transfer1, c3Transfer2], innerSwaps := [],
    txText := "" }

/-- The record the normalizer produces on the worked example. -/
def c3Rec : TxRecord :=
  { signature := "", timestamp := 0, transaction_type := "Swap",
    from_wallet := some "A", to_wallet := some "B",
    tball_amount := 100, wsol_amount := 5 / 2, other_token_amount := 0,
    other_token_mint := none, aggregators := none, referral_fees := 0,
    referral_vault := none, intermediate_swaps := "",
    fee := 5000 / 1000000000, success := true, raw_data := "" }

/-- Concrete evaluation of the normalizer on the worked example. -/
theorem c3_extract_eq : extract_transaction_data c3Tx = Except.ok c3Rec := by
  simp [extract_transaction_data, c3Tx, c3Transfer1, c3Transfer2, c3Rec,
    tballOf, wsolOf, otherOf, referralLoop, referralStep, allSwapStrings,
    innerSwapStrings, legsStrings, legStr, sumAmounts, otherMint, fromWallet, tballFrom,
    toWallet, classifyTx, detectAggregators, strContains, charsHasSub,
    charsHasPre, TBALL_MINT_ADDRESS, WSOL_MINT_ADDRESS, REFERRAL_VAULT_PATTERN,
    Bind.bind, Except.bind, Int.zero_fdiv, List.filter_cons, List.filter_nil,
    List.getLast?_singleton, List.getLast?_cons_cons, String.intercalate]

/-- C3: on the worked example the normalizer returns a Swap record with
tracked amount 100, reference amount 2.5, wallets A and B, fee
5000 / 10^9 = 0.000005, and success true. -/
theorem C3_worked_example :
    extract_transaction_data c3Tx = Except.ok c3Rec ∧
    c3Rec.transaction_type = "Swap" ∧
    c3Rec.tball_amount = 100 ∧
    c3Rec.wsol_amount = 5 / 2 ∧
    c3Rec.from_wallet = some "A" ∧
    c3Rec.to_wallet = some "B" ∧
    c3Rec.fee = 5000 / 1000000000 ∧
    c3Rec.fee = 5 / 1000000 ∧
    c3Rec.success = true :=
  ⟨c3_extract_eq, rfl, rfl, rfl, rfl, rfl, rfl, by norm_num [c3Rec], rfl⟩

/-- Transaction fixture carrying only a timestamp, used for the C8 collision
conjunct. -/
def tsOnlyTx (n : Int) : RawTx :=
  { signature := none, timestamp := some n, fee := none, feePayer := none,
    err := none, tokenTransfers := [], innerSwaps := [], txText := "" }

/-- The record the normalizer produces on a transfer-free transaction whose
only populated field is the timestamp. -/
def tsOnlyRec (ts : Int) : TxRecord :=
  { signature := "", timestamp := ts, transaction_type := "Transfer",
    from_wallet := none, to_wallet := none, tball_amount := 0, wsol_amount := 0,
    other_token_amount := 0, other_token_mint := none, aggregators := none,
    referral_fees := 0, referral_vault := none, intermediate_swaps := "",
    fee := 0, success := true, raw_data := "" }

/-- Concrete evaluation of the normalizer on the timestamp-only fixture. -/
theorem tsOnly_extract_eq (n : Int) :
    extract_transaction_data (tsOnlyTx n) = Except.ok (tsOnlyRec (n.fdiv 1000)) := by
  simp [extract_transaction_data, tsOnlyTx, tsOnlyRec, tballOf, wsolOf,
    otherOf, referralLoop, allSwapStrings, innerSwapStrings, legsStrings,
    sumAmounts, otherMint, fromWallet, tballFrom, toWallet, classifyTx,
    detectAggregators, strContains, charsHasSub, charsHasPre, Bind.bind,
    Except.bind, List.filter_nil, String.intercalate]

/-- C8: the stored timestamp is the raw timestamp floor-divided by 1000, a
missing timestamp is stored as 0, and two raw timestamps less than 1000
apart can collide (1000 and 1999 both map to 1). -/
theorem C8_timestamp_rule :
    (∀ (tx : RawTx) (rec : TxRecord), extract_transaction_data tx = Except.ok rec →
      rec.timestamp = (tx.timestamp.getD 0).fdiv 1000 ∧
      (tx.timestamp = none → rec.timestamp = 0)) ∧
    (∃ r1 r2 : TxRecord,
      extract_transaction_data (tsOnlyTx 1000) = Except.ok r1 ∧
      extract_transaction_data (tsOnlyTx 1999) = Except.ok r2 ∧
      (1999 : Int) - 1000 < 1000 ∧ r1.timestamp = 1 ∧ r2.timestamp = 1) := by
  constructor
  · intro tx rec h
    obtain ⟨rf, ss, ta, wa, oa, om, fw, tw, _, _, _, _, _, _, _, _, hrec⟩ :=
      extract_ok_inv tx rec h
    subst hrec
    refine ⟨rfl, fun hnone => ?_⟩
    simp [hnone]
  · exact ⟨tsOnlyRec ((1000 : Int).fdiv 1000), tsOnlyRec ((1999 : Int).fdiv 1000),
      tsOnly_extract_eq 1000, tsOnly_extract_eq 1999, by decide, by decide, by decide⟩

/-- C8 witness: the timestamp rule applied to the concrete transaction with
raw timestamp 1500, which extracts successfully and stores second 1. -/
theorem C8_timestamp_rule_witness :
    (tsOnlyRec ((1500 : Int).fdiv 1000)).timestamp =
      ((tsOnlyTx 1500).timestamp.getD 0).fdiv 1000 ∧
    ((tsOnlyTx 1500).timestamp = none →
      (tsOnlyRec ((1500 : Int).fdiv 1000)).timestamp = 0) :=
  C8_timestamp_rule.1 (tsOnlyTx 1500) (tsOnlyRec ((1500 : Int).fdiv 1000))
    (tsOnly_extract_eq 1500)

/-- A tracked-mint transfer used in classifier comparisons. -/
def c9Tracked : RawTransfer :=
  { mint := some TBALL_MINT_ADDRESS, fromUserAccount := some "A",
    toUserAccount := some "B", tokenAmount := RawAmount.num 1 }

/-- A transfer in a third mint (neither tracked nor reference). -/
def c9Other : RawTransfer :=
  { mint := some "OtherMint1111111111111111111111111111111111",
    fromUserAccount := some "B", toUserAccount := some "C",
    tokenAmount := RawAmount.num 2 }

/-- C9 counterexample: on a transfer list with one tracked-mint and one
other-mint transfer and no reference-mint transfer, the collector classifies
Swap while the fetcher classifies Transfer, so the two duplicated
classifiers do not agree. -/
theorem C9_classifiers_disagree :
    collectorTransactionType [c9Tracked, c9Other] = "Swap" ∧
    fetcherTransactionType [c9Tracked, c9Other] = "Transfer" ∧
    collectorTransactionType [c9Tracked, c9Other] ≠
      fetcherTransactionType [c9Tracked, c9Other] := by
  refine ⟨?_, ?_, ?_⟩ <;>
    simp [collectorTransactionType, fetcherTransactionType, classifyTx,
      classifyTxFetcher, tballOf, wsolOf, otherOf, c9Tracked, c9Other,
      TBALL_MINT_ADDRESS, WSOL_MINT_ADDRESS, List.filter_cons, List.filter_nil]

/-- C9 amended: the two classifiers agree on every transfer list except
those with a tracked-mint transfer, no reference-mint transfer, and an
other-mint transfer (where the collector says Swap and the fetcher does
not). -/
theorem C9_classifiers_agree_amended :
    ∀ ts : List RawTransfer,
      (otherOf ts = [] ∨ wsolOf ts ≠ [] ∨ tballOf ts = []) →
      collectorTransactionType ts = fetcherTransactionType ts := by
  intro ts h
  unfold collectorTransactionType fetcherTransactionType classifyTx classifyTxFetcher
  rcases h with h | h | h
  · simp [h]
  · by_cases hT : tballOf ts = [] <;> simp [hT, h]
  · simp [h]

/-- C9 witness: the amended agreement applied to the concrete singleton
tracked-transfer list, whose other bucket is empty. -/
theorem C9_classifiers_agree_amended_witness :
    collectorTransactionType [c9Tracked] = fetcherTransactionType [c9Tracked] :=
  C9_classifiers_agree_amended [c9Tracked]
    (Or.inl (by simp [otherOf, c9Tracked, TBALL_MINT_ADDRESS, WSOL_MINT_ADDRESS,
      List.filter_cons, List.filter_nil]))

/-- Replacing every row carrying the upserted signature leaves each row's
signature unchanged, so per-signature row counts are preserved. -/
theorem replace_preserves_sig (tx r : TxRecord) :
    (if r.signature = tx.signature then tx else r).signature = r.signature := by
  by_cases h : r.signature = tx.signature <;> simp [h]

/-- Replacing every row carrying the upserted signature changes no row's
signature, so per-signature row counts are preserved. -/
theorem filter_map_replace (db : List TxRecord) (tx : TxRecord) (s : String) :
    ((db.map fun r => if r.signature = tx.signature then tx else r).filter
        fun r => r.signature = s).length =
      (db.filter fun r => r.signature = s).length := by
  induction db with
  | nil => rfl
  | cons r rest ih =>
    simp only [List.map_cons, List.filter_cons]
    by_cases hs : r.signature = s
    · have h1 : decide ((if r.signature = tx.signature then tx else r).signature = s) = true := by
        rw [replace_preserves_sig]
        simp [hs]
      have h2 : decide (r.signature = s) = true := by simp [hs]
      rw [if_pos h1, if_pos h2]
      simp [ih]
    · have h1 : ¬ decide ((if r.signature = tx.signature then tx else r).signature = s) = true := by
        rw [replace_preserves_sig]
        simp [hs]
      have h2 : ¬ decide (r.signature = s) = true := by simp [hs]
      rw [if_neg h1, if_neg h2]
      exact ih

/-- The UPDATE branch turns the rows carrying the signature into copies of
the incoming record. -/
theorem map_replace_filter (db : List TxRecord) (tx : TxRecord) :
    ((db.map fun r => if r.signature = tx.signature then tx else r).filter
        fun r => r.signature = tx.signature) =
      (db.filter fun r => r.signature = tx.signature).map fun _ => tx := by
  induction db with
  | nil => rfl
  | cons r rest ih =>
    by_cases h : r.signature = tx.signature
    · simp [List.filter_cons, h, ih]
    · simp [List.filter_cons, h, ih]

/-- When no row carries the signature, the filter by that signature is empty. -/
theorem any_sig_false_filter (db : List TxRecord) (s : String)
    (h : (db.any fun r => r.signature = s) = false) :
    db.filter (fun r => r.signature = s) = [] := by
  induction db with
  | nil => rfl
  | cons r rest ih =>
    simp only [List.any_cons, Bool.or_eq_false_iff] at h
    have hr : ¬ r.signature = s := by simpa using h.1
    simp [List.filter_cons, hr, ih h.2]

/-- One upsert leaves exactly the incoming record under its signature and
preserves the at-most-one-row-per-signature invariant. -/
theorem upsert_props (db : List TxRecord) (tx : TxRecord)
    (hinv : ∀ s, sigCount db s ≤ 1) :
    ((upsertTx db tx).filter fun r => r.signature = tx.signature) = [tx] ∧
    (∀ s, sigCount (upsertTx db tx) s ≤ 1) := by
  unfold upsertTx
  by_cases hany : (db.any fun r => r.signature = tx.signature) = true
  · rw [if_pos hany]
    constructor
    · rw [map_replace_filter]
      have hne : db.filter (fun r => r.signature = tx.signature) ≠ [] := by
        obtain ⟨x, hx, hpx⟩ := List.any_eq_true.mp hany
        intro hemp
        have : x ∈ db.filter (fun r => r.signature = tx.signature) :=
          List.mem_filter.mpr ⟨hx, hpx⟩
        rw [hemp] at this
        exact (List.not_mem_nil x) this
      have hle : (db.filter fun r => r.signature = tx.signature).length ≤ 1 :=
        hinv tx.signature
      have hpos : 0 < (db.filter fun r => r.signature = tx.signature).length :=
        List.length_pos.mpr hne
      have hone : (db.filter fun r => r.signature = tx.signature).length = 1 := by
        omega
      obtain ⟨a, ha⟩ := List.length_eq_one.mp hone
      rw [ha]
      rfl
    · intro s
      unfold sigCount
      rw [filter_map_replace]
      exact hinv s
  · have hany' : (db.any fun r => r.signature = tx.signature) = false := by
      simpa using hany
    rw [if_neg hany]
    constructor
    · rw [List.filter_append, any_sig_false_filter db _ hany']
      simp [List.filter_cons]
    · intro s
      unfold sigCount
      rw [List.filter_append, List.length_append]
      by_cases hs : tx.signature = s
      · have hdb : db.filter (fun r => r.signature = s) = [] := by
          apply any_sig_false_filter
          rw [← hs]
          exact hany'
        unfold sigCount at hinv
        simp [List.filter_cons, hs, hdb]
      · have hinvs := hinv s
        unfold sigCount at hinvs
        simp [List.filter_cons, hs]
        omega

/-- C2 amended: both stores keep at most one row per signature and never
insert a duplicate; re-ingesting a signature into the collector store
replaces the row with the latest record, while the fetcher store skips the
conflicting insert and keeps the first record's values. -/
theorem C2_store_idempotence_amended :
    (∀ (db : List TxRecord) (tx tx' : TxRecord),
      (∀ s, sigCount db s ≤ 1) → tx'.signature = tx.signature →
      sigCount (save_transactions_to_db db [tx, tx']) tx.signature = 1 ∧
      ((save_transactions_to_db db [tx, tx']).filter
        fun r => r.signature = tx.signature) = [tx'] ∧
      (∀ s, sigCount (save_transactions_to_db db [tx, tx']) s ≤ 1)) ∧
    (∀ (r1 r2 : FetcherRow) (v : String),
      r1.transaction_signature = some v → r2.transaction_signature = some v →
      save_all_transactions_to_db [] [r1, r2] = [r1]) := by
  constructor
  · intro db tx tx' hinv hsig
    have h1 := upsert_props db tx hinv
    have h2 := upsert_props (upsertTx db tx) tx' h1.2
    rw [hsig] at h2
    have hfold : save_transactions_to_db db [tx, tx'] =
        upsertTx (upsertTx db tx) tx' := rfl
    refine ⟨?_, ?_, ?_⟩
    · unfold sigCount
      rw [hfold, h2.1]
      rfl
    · rw [hfold]
      exact h2.1
    · rw [hfold]
      exact h2.2
  · intro r1 r2 v h1 h2
    simp [save_all_transactions_to_db, fetcherInsert, fetcherSigConflict, h1, h2]

/-- First ingestion of the C2 counterexample: a Swap row under signature SIG. -/
def c2RowA : FetcherRow :=
  { from_wallet := "A", to_wallet := "B", tball_sent := 1, tball_received := 1,
    transaction_signature := some "SIG", transaction_type := "Swap",
    aggregator := none, timestamp := some 5 }

/-- Re-ingestion of the same signature with different mutable fields. -/
def c2RowB : FetcherRow :=
  { from_wallet := "X", to_wallet := "Y", tball_sent := 1, tball_received := 1,
    transaction_signature := some "SIG", transaction_type := "Transfer",
    aggregator := none, timestamp := some 6 }

/-- C2 counterexample: re-ingesting signature SIG into the fetcher store
does not update the row in place; the stored row keeps the first
ingestion's values even though the second ingestion differs. -/
theorem C2_fetcher_store_not_updated :
    save_all_transactions_to_db [] [c2RowA, c2RowB] = [c2RowA] ∧
    c2RowA.transaction_signature = c2RowB.transaction_signature ∧
    c2RowA.from_wallet ≠ c2RowB.from_wallet := by
  refine ⟨?_, rfl, ?_⟩
  · simp [save_all_transactions_to_db, fetcherInsert, fetcherSigConflict,
      c2RowA, c2RowB]
  · simp [c2RowA, c2RowB]

/-- Collector-store record fixture: the worked-example record re-ingested
with a different transaction type. -/
def c2Tx2 : TxRecord :=
  { c3Rec with transaction_type := "Transfer" }

/-- C2 witness: the amended store property applied to an empty collector
store receiving the worked-example record twice (second time with changed
fields), and to the fetcher store receiving the two concrete rows. -/
theorem C2_store_idempotence_amended_witness :
    (sigCount (save_transactions_to_db [] [c3Rec, c2Tx2]) c3Rec.signature = 1 ∧
      ((save_transactions_to_db [] [c3Rec, c2Tx2]).filter
        fun r => r.signature = c3Rec.signature) = [c2Tx2]) ∧
    save_all_transactions_to_db [] [c2RowA, c2RowB] = [c2RowA] := by
  have h := C2_store_idempotence_amended.1 [] c3Rec c2Tx2
    (fun s => by simp [sigCount]) rfl
  exact ⟨⟨h.1, h.2.1⟩, C2_store_idempotence_amended.2 c2RowA c2RowB "SIG" rfl rfl⟩

/-- A successful bucket sum equals the exact sum of the parsed amounts, and
forces every amount in the bucket to be a parseable number. -/
theorem sumAmounts_ok (l : List RawTransfer) (q : ℚ)
    (h : sumAmounts l = Except.ok q) :
    q = (l.map amountQ).sum ∧
    ∀ t ∈ l, ∃ r : ℚ, t.tokenAmount = RawAmount.num r := by
  induction l generalizing q with
  | nil =>
    simp only [sumAmounts, Except.ok.injEq] at h
    subst h
    simp
  | cons t ts ih =>
    cases hta : t.tokenAmount with
    | num r =>
      simp only [sumAmounts, hta] at h
      cases hs : sumAmounts ts with
      | error e => rw [hs] at h; cases h
      | ok s =>
        rw [hs] at h
        simp only [Except.ok.injEq] at h
        obtain ⟨hsum, hall⟩ := ih s hs
        constructor
        · rw [← h, hsum]
          simp [amountQ, hta]
        · intro u hu
          rcases List.mem_cons.mp hu with hu | hu
          · exact ⟨r, hu ▸ hta⟩
          · exact hall u hu
    | missing => simp [sumAmounts, hta] at h
    | malformed => simp [sumAmounts, hta] at h

/-- Receiver test of the referral-fee loop: the transfer has a receiver
account and it contains the vault pattern. -/
def vaultMatch (t : RawTransfer) : Bool :=
  match t.toUserAccount with
  | some ua => strContains ua REFERRAL_VAULT_PATTERN
  | none => false

/-- The last element of a cons list is the last of the tail when the tail is
non-empty, else the head. -/
theorem getLast?_cons_eq {α : Type} (a : α) (l : List α) :
    (a :: l).getLast? =
      (match l.getLast? with
       | some x => some x
       | none => some a) := by
  cases l with
  | nil => rfl
  | cons b bs =>
    rw [List.getLast?_cons_cons]
    have hne : (b :: bs).getLast?.isSome := by
      rw [List.getLast?_isSome]
      simp
    obtain ⟨x, hx⟩ := Option.isSome_iff_exists.mp hne
    rw [hx]

/-- A successful referral loop forces every other-bucket transfer to carry a
receiver account, accumulates the amounts of the vault-matching transfers,
and records the receiver of the last match (the accumulator when none
match). -/
theorem referralLoop_ok (l : List RawTransfer) :
    ∀ (acc : ℚ × Option String) (res : ℚ × Option String),
      referralLoop acc l = Except.ok res →
      (∀ t ∈ l, t.toUserAccount ≠ none) ∧
      res.1 = acc.1 + ((l.filter vaultMatch).map amountQ).sum ∧
      res.2 = (match (l.filter vaultMatch).getLast? with
               | some t => t.toUserAccount
               | none => acc.2) := by
  induction l with
  | nil =>
    intro acc res h
    simp only [referralLoop, Except.ok.injEq] at h
    subst h
    simp
  | cons t ts ih =>
    intro acc res h
    simp only [referralLoop] at h
    cases hua : t.toUserAccount with
    | none => simp [referralStep, hua] at h
    | some ua =>
      by_cases hpat : strContains ua REFERRAL_VAULT_PATTERN = true
      · cases hta : t.tokenAmount with
        | num r =>
          rw [show referralStep acc t = Except.ok (acc.1 + r, some ua) by
            simp [referralStep, hua, hpat, hta]] at h
          obtain ⟨hall, hsum, hlast⟩ := ih (acc.1 + r, some ua) res h
          have hvm : vaultMatch t = true := by simp [vaultMatch, hua, hpat]
          refine ⟨?_, ?_, ?_⟩
          · intro u hu
            rcases List.mem_cons.mp hu with hu | hu
            · rw [hu, hua]; exact Option.some_ne_none ua
            · exact hall u hu
          · rw [hsum]
            simp only [List.filter_cons, hvm, if_true, List.map_cons,
              List.sum_cons, amountQ, hta]
            ring
          · rw [hlast]
            rw [List.filter_cons, if_pos hvm, getLast?_cons_eq]
            cases hg : (ts.filter vaultMatch).getLast? with
            | none => simp [hua]
            | some u => simp
        | missing =>
          rw [show referralStep acc t = Except.error "KeyError: tokenAmount" by
            simp [referralStep, hua, hpat, hta]] at h
          cases h
        | malformed =>
          rw [show referralStep acc t = Except.error "ValueError: tokenAmount" by
            simp [referralStep, hua, hpat, hta]] at h
          cases h
      · rw [show referralStep acc t = Except.ok acc by
          simp [referralStep, hua, hpat]] at h
        obtain ⟨hall, hsum, hlast⟩ := ih acc res h
        have hvm : ¬ vaultMatch t = true := by simp [vaultMatch, hua, hpat]
        refine ⟨?_, ?_, ?_⟩
        · intro u hu
          rcases List.mem_cons.mp hu with hu | hu
          · rw [hu, hua]; exact Option.some_ne_none ua
          · exact hall u hu
        · rw [hsum, List.filter_cons, if_neg hvm]
        · rw [hlast, List.filter_cons, if_neg hvm]

/-- C4: on every successfully normalized transaction with non-negative
transfer amounts, each bucket amount is the exact sum of its bucket's parsed
amounts, the sums are non-negative, empty buckets yield zero rather than a
missing value, and the amounts are invariant under any permutation of the
transfer list. -/
theorem C4_amount_aggregation :
    ∀ (tx : RawTx) (rec : TxRecord), extract_transaction_data tx = Except.ok rec →
      (∀ t ∈ tx.tokenTransfers, 0 ≤ amountQ t) →
      rec.tball_amount = ((tballOf tx.tokenTransfers).map amountQ).sum ∧
      rec.wsol_amount = ((wsolOf tx.tokenTransfers).map amountQ).sum ∧
      rec.other_token_amount = ((otherOf tx.tokenTransfers).map amountQ).sum ∧
      0 ≤ rec.tball_amount ∧ 0 ≤ rec.wsol_amount ∧ 0 ≤ rec.other_token_amount ∧
      (tballOf tx.tokenTransfers = [] → rec.tball_amount = 0) ∧
      (wsolOf tx.tokenTransfers = [] → rec.wsol_amount = 0) ∧
      (otherOf tx.tokenTransfers = [] → rec.other_token_amount = 0) ∧
      (∀ (tx' : RawTx) (rec' : TxRecord),
        extract_transaction_data tx' = Except.ok rec' →
        tx'.tokenTransfers.Perm tx.tokenTransfers →
        rec'.tball_amount = rec.tball_amount ∧
        rec'.wsol_amount = rec.wsol_amount ∧
        rec'.other_token_amount = rec.other_token_amount) := by
  intro tx rec h hnn
  obtain ⟨rf, ss, ta, wa, oa, om, fw, tw, hrf, hss, hta, hwa, hoa, hom, hfw, htw, hrec⟩ :=
    extract_ok_inv tx rec h
  have htaEq := (sumAmounts_ok _ _ hta).1
  have hwaEq := (sumAmounts_ok _ _ hwa).1
  have hoaEq := (sumAmounts_ok _ _ hoa).1
  have hsub : ∀ (p : RawTransfer → Bool) (t : RawTransfer),
      t ∈ tx.tokenTransfers.filter p → t ∈ tx.tokenTransfers :=
    fun p t ht => (List.mem_filter.mp ht).1
  have hnonneg : ∀ l : List RawTransfer,
      (∀ t ∈ l, t ∈ tx.tokenTransfers) → 0 ≤ (l.map amountQ).sum := by
    intro l hl
    apply List.sum_nonneg
    intro x hx
    obtain ⟨t, htmem, rfl⟩ := List.mem_map.mp hx
    exact hnn t (hl t htmem)
  subst hrec
  refine ⟨htaEq, hwaEq, hoaEq, ?_, ?_, ?_, ?_, ?_, ?_, ?_⟩
  · rw [htaEq]; exact hnonneg _ (hsub _)
  · rw [hwaEq]; exact hnonneg _ (hsub _)
  · rw [hoaEq]; exact hnonneg _ (hsub _)
  · intro hemp; rw [htaEq, hemp]; rfl
  · intro hemp; rw [hwaEq, hemp]; rfl
  · intro hemp; rw [hoaEq, hemp]; rfl
  · intro tx' rec' h' hperm
    obtain ⟨rf', ss', ta', wa', oa', om', fw', tw', hrf', hss', hta', hwa', hoa',
      hom', hfw', htw', hrec'⟩ := extract_ok_inv tx' rec' h'
    have hta'Eq := (sumAmounts_ok _ _ hta').1
    have hwa'Eq := (sumAmounts_ok _ _ hwa').1
    have hoa'Eq := (sumAmounts_ok _ _ hoa').1
    subst hrec'
    refine ⟨?_, ?_, ?_⟩
    · rw [hta'Eq, htaEq]
      exact ((hperm.filter _).map amountQ).sum_eq
    · rw [hwa'Eq, hwaEq]
      exact ((hperm.filter _).map amountQ).sum_eq
    · rw [hoa'Eq, hoaEq]
      exact ((hperm.filter _).map amountQ).sum_eq

/-- C4 witness: the aggregation facts applied to the worked-example
transaction, whose two transfer amounts are non-negative. -/
theorem C4_amount_aggregation_witness :
    c3Rec.tball_amount = ((tballOf c3Tx.tokenTransfers).map amountQ).sum ∧
    0 ≤ c3Rec.tball_amount ∧
    (otherOf c3Tx.tokenTransfers = [] → c3Rec.other_token_amount = 0) := by
  have hnn : ∀ t ∈ c3Tx.tokenTransfers, 0 ≤ amountQ t := by
    intro t ht
    simp only [c3Tx, List.mem_cons, List.not_mem_nil, or_false] at ht
    rcases ht with rfl | rfl <;> norm_num [amountQ, c3Transfer1, c3Transfer2]
  have h := C4_amount_aggregation c3Tx c3Rec c3_extract_eq hnn
  exact ⟨h.1, h.2.2.2.1, h.2.2.2.2.2.2.2.2.1⟩

/-- C7: on every successfully normalized transaction the referral fee is the
sum of the parsed amounts of the other-bucket transfers whose receiver
contains the vault pattern, the vault account is the receiver of the last
such match (absent when none match), zero and absent when nothing matches,
and the other bucket excludes all tracked- and reference-mint transfers. -/
theorem C7_referral_fee :
    ∀ (tx : RawTx) (rec : TxRecord), extract_transaction_data tx = Except.ok rec →
      rec.referral_fees =
        (((otherOf tx.tokenTransfers).filter vaultMatch).map amountQ).sum ∧
      rec.referral_vault =
        (match ((otherOf tx.tokenTransfers).filter vaultMatch).getLast? with
         | some t => t.toUserAccount
         | none => none) ∧
      ((otherOf tx.tokenTransfers).filter vaultMatch = [] →
        rec.referral_fees = 0 ∧ rec.referral_vault = none) ∧
      (∀ t ∈ otherOf tx.tokenTransfers,
        ¬ t.mint = some TBALL_MINT_ADDRESS ∧ ¬ t.mint = some WSOL_MINT_ADDRESS) := by
  intro tx rec h
  obtain ⟨rf, ss, ta, wa, oa, om, fw, tw, hrf, hss, hta, hwa, hoa, hom, hfw, htw, hrec⟩ :=
    extract_ok_inv tx rec h
  obtain ⟨hall, hsum, hlast⟩ := referralLoop_ok _ _ _ hrf
  subst hrec
  have hfees : rf.1 =
      (((otherOf tx.tokenTransfers).filter vaultMatch).map amountQ).sum := by
    rw [hsum]; ring
  have hvault : rf.2 =
      (match ((otherOf tx.tokenTransfers).filter vaultMatch).getLast? with
       | some t => t.toUserAccount
       | none => none) := hlast
  refine ⟨hfees, hvault, ?_, ?_⟩
  · intro hemp
    rw [hemp] at hfees hvault
    exact ⟨by rw [hfees]; rfl, by rw [hvault]; rfl⟩
  · intro t ht
    have h2 : t ∈ tx.tokenTransfers ∧ ¬ t.mint = some TBALL_MINT_ADDRESS ∧
        ¬ t.mint = some WSOL_MINT_ADDRESS := by
      simpa [otherOf] using ht
    exact h2.2

/-- A transfer in a third mint paying the referral-fee vault. -/
def c7Fee : RawTransfer :=
  { mint := some "FeeMint11111111111111111111111111111111111",
    fromUserAccount := some "A",
    toUserAccount := some "Jupiter Partner Referral Fee Vault 7Hq",
    tokenAmount := RawAmount.num 4 }

/-- A transaction whose single transfer pays the referral-fee vault. -/
def c7Tx : RawTx :=
  { signature := none, timestamp := none, fee := none, feePayer := none,
    err := none, tokenTransfers := [c7Fee], innerSwaps := [], txText := "" }

/-- The record the normalizer produces on the referral-fee fixture. -/
def c7Rec : TxRecord :=
  { signature := "", timestamp := 0, transaction_type := "Transfer",
    from_wallet := none, to_wallet := none, tball_amount := 0, wsol_amount := 0,
    other_token_amount := 4,
    other_token_mint := some "FeeMint11111111111111111111111111111111111",
    aggregators := none, referral_fees := 4,
    referral_vault := some "Jupiter Partner Referral Fee Vault 7Hq",
    intermediate_swaps := "", fee := 0, success := true, raw_data := "" }

/-- Concrete evaluation of the normalizer on the referral-fee fixture. -/
theorem c7_extract_eq : extract_transaction_data c7Tx = Except.ok c7Rec := by
  simp [extract_transaction_data, c7Tx, c7Fee, c7Rec, tballOf, wsolOf, otherOf,
    referralLoop, referralStep, allSwapStrings, innerSwapStrings, legsStrings,
    sumAmounts, otherMint, fromWallet, tballFrom, toWallet, classifyTx,
    detectAggregators, strContains, charsHasSub, charsHasPre,
    TBALL_MINT_ADDRESS, WSOL_MINT_ADDRESS, REFERRAL_VAULT_PATTERN, Bind.bind,
    Except.bind, Int.zero_fdiv, List.filter_cons, List.filter_nil,
    String.intercalate]

/-- C7 witness: the referral-fee characterization applied to the concrete
vault-paying transaction. -/
theorem C7_referral_fee_witness :
    c7Rec.referral_fees =
      (((otherOf c7Tx.tokenTransfers).filter vaultMatch).map amountQ).sum ∧
    c7Rec.referral_vault =
      (match ((otherOf c7Tx.tokenTransfers).filter vaultMatch).getLast? with
       | some t => t.toUserAccount
       | none => none) := by
  have h := C7_referral_fee c7Tx c7Rec c7_extract_eq
  exact ⟨h.1, h.2.1⟩

/-- Batch processing drops exactly the `None` results of the safe extractor. -/
theorem processBatch_eq_filterMap (txs : List RawTx) :
    processBatch txs = txs.filterMap safe_extract_transaction_data := by
  simp [processBatch, List.filterMap_map, Function.comp]

/-- A batch whose members all extract successfully keeps its full length. -/
theorem processBatch_all_some (l : List RawTx)
    (h : ∀ tx ∈ l, (safe_extract_transaction_data tx).isSome) :
    (processBatch l).length = l.length := by
  rw [processBatch_eq_filterMap]
  induction l with
  | nil => rfl
  | cons t ts ih =>
    obtain ⟨rec, hrec⟩ := Option.isSome_iff_exists.mp (h t (List.mem_cons_self t ts))
    rw [List.filterMap_cons, hrec]
    simp only [List.length_cons]
    rw [ih fun tx htx => h tx (List.mem_cons_of_mem t htx)]

/-- Normalization errors split over list concatenation. -/
theorem normalizationErrors_append (a b : List RawTx) :
    normalizationErrors (a ++ b) = normalizationErrors a + normalizationErrors b := by
  simp [normalizationErrors, List.map_append, List.filter_append]

/-- A batch whose members all extract successfully reports no errors. -/
theorem normalizationErrors_all_some (l : List RawTx)
    (h : ∀ tx ∈ l, (safe_extract_transaction_data tx).isSome) :
    normalizationErrors l = 0 := by
  induction l with
  | nil => rfl
  | cons t ts ih =>
    obtain ⟨rec, hrec⟩ := Option.isSome_iff_exists.mp (h t (List.mem_cons_self t ts))
    have hrest := ih fun tx htx => h tx (List.mem_cons_of_mem t htx)
    simp only [normalizationErrors, List.map_cons, List.filter_cons, hrec] at *
    simpa [hrec] using hrest

/-- C5: in a batch where exactly one transaction fails extraction, the
pipeline yields the records of all other transactions (in order), its output
is one shorter than the batch, and exactly one normalization error is
reported; the failure never aborts the rest of the batch. -/
theorem C5_isolation :
    ∀ (l1 : List RawTx) (bad : RawTx) (l2 : List RawTx),
      (∀ tx ∈ l1, (safe_extract_transaction_data tx).isSome) →
      (∀ tx ∈ l2, (safe_extract_transaction_data tx).isSome) →
      safe_extract_transaction_data bad = none →
      processBatch (l1 ++ bad :: l2) = processBatch l1 ++ processBatch l2 ∧
      (processBatch (l1 ++ bad :: l2)).length = (l1 ++ bad :: l2).length - 1 ∧
      normalizationErrors (l1 ++ bad :: l2) = 1 := by
  intro l1 bad l2 h1 h2 hbad
  have hsplit : processBatch (l1 ++ bad :: l2) = processBatch l1 ++ processBatch l2 := by
    rw [processBatch_eq_filterMap, processBatch_eq_filterMap, processBatch_eq_filterMap,
      List.filterMap_append, List.filterMap_cons, hbad]
  refine ⟨hsplit, ?_, ?_⟩
  · rw [hsplit, List.length_append, processBatch_all_some l1 h1,
      processBatch_all_some l2 h2, List.length_append, List.length_cons]
    omega
  · have hone : normalizationErrors [bad] = 1 := by
      simp [normalizationErrors, hbad]
    have : bad :: l2 = [bad] ++ l2 := rfl
    rw [normalizationErrors_append, this, normalizationErrors_append,
      normalizationErrors_all_some l1 h1, normalizationErrors_all_some l2 h2, hone]

/-- A raw transaction whose single transfer is in a third mint and carries
no receiver account: the referral-fee loop raises on it. -/
def c10BadTx : RawTx :=
  { signature := some "BADSIG", timestamp := none, fee := none, feePayer := none,
    err := none,
    tokenTransfers :=
      [{ mint := some "ThirdMint1111111111111111111111111111111111",
         fromUserAccount := some "A", toUserAccount := none,
         tokenAmount := RawAmount.missing }],
    innerSwaps := [], txText := "" }

/-- C10: whenever some other-bucket transfer lacks a receiver account or has
an amount that does not parse as a number, the safe extractor returns the
error outcome for the whole transaction. -/
theorem C10_other_bucket_failure :
    ∀ tx : RawTx,
      (∃ t ∈ otherOf tx.tokenTransfers,
        t.toUserAccount = none ∨ ∀ q : ℚ, t.tokenAmount ≠ RawAmount.num q) →
      safe_extract_transaction_data tx = none := by
  intro tx ⟨t, htmem, hbadt⟩
  unfold safe_extract_transaction_data
  cases hex : extract_transaction_data tx with
  | error e => rfl
  | ok rec =>
    exfalso
    obtain ⟨rf, ss, ta, wa, oa, om, fw, tw, hrf, hss, hta, hwa, hoa, hom, hfw, htw, _⟩ :=
      extract_ok_inv tx rec hex
    rcases hbadt with hnone | hnum
    · exact (referralLoop_ok _ _ _ hrf).1 t htmem hnone
    · obtain ⟨r, hr⟩ := (sumAmounts_ok _ _ hoa).2 t htmem
      exact hnum r hr

/-- C10 witness: the error outcome on the concrete transaction whose
other-bucket transfer lacks a receiver account. -/
theorem C10_other_bucket_failure_witness :
    safe_extract_transaction_data c10BadTx = none :=
  C10_other_bucket_failure c10BadTx
    ⟨{ mint := some "ThirdMint1111111111111111111111111111111111",
       fromUserAccount := some "A", toUserAccount := none,
       tokenAmount := RawAmount.missing },
     by simp [otherOf, c10BadTx, TBALL_MINT_ADDRESS, WSOL_MINT_ADDRESS,
       List.filter_cons],
     Or.inl rfl⟩

/-- Concrete evaluation: the worked-example transaction extracts to `some`. -/
theorem c3_safe_isSome : (safe_extract_transaction_data c3Tx).isSome := by
  rw [safe_extract_transaction_data, c3_extract_eq]
  rfl

/-- Concrete evaluation: the malformed transaction extracts to `none` (the
referral-fee loop raises on the missing receiver account). -/
theorem c10_bad_safe_none : safe_extract_transaction_data c10BadTx = none := by
  simp [safe_extract_transaction_data, extract_transaction_data, c10BadTx,
    tballOf, wsolOf, otherOf, referralLoop, referralStep, detectAggregators,
    strContains, charsHasSub, charsHasPre, TBALL_MINT_ADDRESS,
    WSOL_MINT_ADDRESS, Bind.bind, Except.bind, List.filter_cons,
    List.filter_nil, Except.toOption]

/-- C5 witness: the isolation property applied to the concrete batch holding
the worked example followed by the malformed transaction. -/
theorem C5_isolation_witness :
    processBatch ([c3Tx] ++ c10BadTx :: []) =
      processBatch [c3Tx] ++ processBatch [] ∧
    (processBatch ([c3Tx] ++ c10BadTx :: [])).length =
      ([c3Tx] ++ c10BadTx :: []).length - 1 ∧
    normalizationErrors ([c3Tx] ++ c10BadTx :: []) = 1 :=
  C5_isolation [c3Tx] c10BadTx []
    (fun tx htx => by
      rw [List.mem_singleton.mp htx]
      exact c3_safe_isSome)
    (fun tx htx => absurd htx (List.not_mem_nil tx))
    c10_bad_safe_none

/-- Against an always-rate-limited collaborator, the transaction fetch loop
consumes one request per remaining retry and returns the empty result. -/
theorem getTballLoop_allRL (respond : Nat → FetchResp) (limit : Nat)
    (h : ∀ n, respond n = FetchResp.rateLimited) :
    ∀ (remaining attempt : Nat),
      getTballLoop respond limit attempt remaining = ([], attempt + remaining) := by
  intro remaining
  induction remaining with
  | zero => intro a; rfl
  | succ r ih =>
    intro a
    rw [show getTballLoop respond limit a (r + 1) =
        (match respond a with
         | FetchResp.ok txs => (txs.take limit, a + 1)
         | FetchResp.rateLimited => getTballLoop respond limit (a + 1) r
         | FetchResp.err => ([], a + 1)) from rfl, h a]
    rw [ih (a + 1)]
    simp only [Prod.mk.injEq, true_and]
    omega

/-- The transaction fetch loop stops after one request when the first
response is a non-rate-limit error, returning the empty result. -/
theorem getTballLoop_err_first (respond : Nat → FetchResp) (limit : Nat)
    (attempt remaining : Nat) (h0 : 0 < remaining)
    (he : respond attempt = FetchResp.err) :
    getTballLoop respond limit attempt remaining = ([], attempt + 1) := by
  cases remaining with
  | zero => omega
  | succ r =>
    rw [show getTballLoop respond limit attempt (r + 1) =
        (match respond attempt with
         | FetchResp.ok txs => (txs.take limit, attempt + 1)
         | FetchResp.rateLimited => getTballLoop respond limit (attempt + 1) r
         | FetchResp.err => ([], attempt + 1)) from rfl, he]

/-- Against an always-rate-limited collaborator, the signature pagination
loop consumes one request per remaining retry and returns no signatures. -/
theorem getSignaturesLoop_allRL (respond : Nat → PageResp) (limit : Nat)
    (h : ∀ n, respond n = PageResp.rateLimited) (hl : 0 < limit) :
    ∀ (k attempt retries : Nat), retries + k = MAX_RETRIES →
      getSignaturesLoop respond limit [] attempt retries = ([], attempt + k) := by
  intro k
  induction k with
  | zero =>
    intro a r hr
    have hcond : ¬ (([] : List String).length < limit ∧ r < MAX_RETRIES) := by
      simp only [List.length_nil]
      omega
    rw [getSignaturesLoop, dif_neg hcond]
    simp
  | succ kk ih =>
    intro a r hr
    have hcond : (([] : List String).length < limit ∧ r < MAX_RETRIES) := by
      simp only [List.length_nil]
      omega
    rw [getSignaturesLoop, dif_pos hcond]
    simp only [h a]
    rw [ih (a + 1) (r + 1) (by omega)]
    simp only [Prod.mk.injEq, true_and]
    omega

/-- The pagination loop returns the page collected so far, after two
requests, when a successful page is followed by a non-rate-limit error. -/
theorem getSignaturesLoop_page_then_err (respond : Nat → PageResp) (limit : Nat)
    (ps : List String) (h0 : respond 0 = PageResp.page ps) (hne : ps ≠ [])
    (h1 : respond 1 = PageResp.err) (hlt : ps.length < limit) :
    getSignaturesLoop respond limit [] 0 0 = (ps, 2) := by
  have hc0 : (([] : List String).length < limit ∧ 0 < MAX_RETRIES) := by
    simp only [List.length_nil, MAX_RETRIES]
    omega
  rw [getSignaturesLoop, dif_pos hc0]
  simp only [h0]
  rw [dif_neg hne]
  have hc1 : ((([] : List String) ++ ps).length < limit ∧ 0 < MAX_RETRIES) := by
    simp only [List.nil_append, MAX_RETRIES]
    omega
  rw [getSignaturesLoop, dif_pos hc1]
  simp only [h1]
  simp

/-- C6: against an always-rate-limiting collaborator both the transaction
fetcher and the signature paginator make exactly `MAX_RETRIES` requests and
return the failed (empty) outcome; any other error stops the loop at once,
returning what was collected so far. -/
theorem C6_retry_bound :
    (∀ (respond : Nat → FetchResp) (limit : Nat),
      (∀ n, respond n = FetchResp.rateLimited) →
      get_tball_transactions respond limit = ([], MAX_RETRIES)) ∧
    (∀ (respond : Nat → PageResp) (limit : Nat),
      (∀ n, respond n = PageResp.rateLimited) → 0 < limit →
      get_tball_signatures respond limit = ([], MAX_RETRIES)) ∧
    (∀ (respond : Nat → FetchResp) (limit : Nat),
      respond 0 = FetchResp.err →
      get_tball_transactions respond limit = ([], 1)) ∧
    (∀ (respond : Nat → PageResp) (limit : Nat) (ps : List String),
      respond 0 = PageResp.page ps → ps ≠ [] → respond 1 = PageResp.err →
      ps.length < limit →
      get_tball_signatures respond limit = (ps, 2)) := by
  refine ⟨?_, ?_, ?_, ?_⟩
  · intro respond limit h
    rw [get_tball_transactions, getTballLoop_allRL respond limit h MAX_RETRIES 0]
    simp
  · intro respond limit h hl
    rw [get_tball_signatures,
      getSignaturesLoop_allRL respond limit h hl MAX_RETRIES 0 0 rfl]
    simp
  · intro respond limit h
    rw [get_tball_transactions,
      getTballLoop_err_first respond limit 0 MAX_RETRIES (by simp [MAX_RETRIES]) h]
  · intro respond limit ps h0 hne h1 hlt
    rw [get_tball_signatures,
      getSignaturesLoop_page_then_err respond limit ps h0 hne h1 hlt]

/-- A collaborator that rate-limits the transaction fetcher on every request. -/
def alwaysRL : Nat → FetchResp := fun _ => FetchResp.rateLimited

/-- A collaborator that rate-limits the paginator on every request. -/
def alwaysRLPage : Nat → PageResp := fun _ => PageResp.rateLimited

/-- A collaborator that fails the transaction fetcher immediately with a
non-rate-limit error. -/
def errAtOnce : Nat → FetchResp := fun _ => FetchResp.err

/-- A collaborator that serves the paginator one page and then fails with a
non-rate-limit error. -/
def pageThenErr : Nat → PageResp :=
  fun n => if n = 0 then PageResp.page ["s1"] else PageResp.err

/-- C6 witness: the retry bounds applied to the concrete collaborators, at
the source's default limits (20 transactions, 10 signatures). -/
theorem C6_retry_bound_witness :
    get_tball_transactions alwaysRL 20 = ([], MAX_RETRIES) ∧
    get_tball_signatures alwaysRLPage 10 = ([], MAX_RETRIES) ∧
    get_tball_transactions errAtOnce 20 = ([], 1) ∧
    get_tball_signatures pageThenErr 10 = (["s1"], 2) :=
  ⟨C6_retry_bound.1 alwaysRL 20 (fun _ => rfl),
   C6_retry_bound.2.1 alwaysRLPage 10 (fun _ => rfl) (by decide),
   C6_retry_bound.2.2.1 errAtOnce 20 rfl,
   C6_retry_bound.2.2.2 pageThenErr 10 ["s1"] rfl (by decide) rfl (by decide)⟩
